import Mathlib

/-!
# Verification of the Orion SQL query/schema unification engine

A shallow embedding of the query-unification engine of this repository:

* `src/process_query.py` — `SQLProcessor` (`fix_simple_syntax_errors`,
  `parse_columns`, `infer_column_type`, `are_types_compatible`,
  `check_type_compatibility`, `unify_queries`);
* `src/aws version/definitive.py` — `OrionQueryUnifier`
  (`analyze_table_schemas`, `generate_unified_query`);
* `src/aws version/query_generator.py` — `generate_athena_query`.

Strings are modelled as `List Char`; Python's `re` primitives used by the
code are modelled directly (each concrete pattern of the source gets its own
scanner with Python's leftmost / greedy / lazy semantics).  The external
library call `sqlparse.format(query, keyword_case='upper', reindent=True)`
(third-party, not part of this repository) only normalizes keyword case and
indentation; it is modelled as the identity, which is exact on the inputs
considered here (keywords already upper-case, single-space separated).
Logging (`logger.info`/`logger.warning`/`logger.error`, `self.logger`) has no
effect on any returned value and is dropped.
-/

namespace Orion

/-! ## Python string primitives -/

/-- The quote characters, written via code points. -/
def squote : Char := Char.ofNat 39

def backquote : Char := Char.ofNat 96

def dquote : Char := Char.ofNat 34

/-- Python `str.isspace` / `\s` for the whitespace characters that occur in
`str.strip()` and `re` patterns: space, tab, newline, carriage return,
vertical tab, form feed. -/
def pyIsSpace (c : Char) : Bool :=
  c = ' ' || c = '\t' || c = '\n' || c = '\r' || c = Char.ofNat 11 || c = Char.ofNat 12

/-- Python word character (`\w`, ASCII range, enough for the SQL inputs). -/
def isWordChar (c : Char) : Bool :=
  (('a' ≤ c && c ≤ 'z') || ('A' ≤ c && c ≤ 'Z') || ('0' ≤ c && c ≤ '9') || c = '_')

/-- `str.strip()` — drop leading and trailing whitespace. -/
def pyStrip (l : List Char) : List Char :=
  ((l.dropWhile pyIsSpace).reverse.dropWhile pyIsSpace).reverse

/-- `str.strip(chars)` generalization: drop leading/trailing characters
satisfying `p`. -/
def pyStripSet (p : Char → Bool) (l : List Char) : List Char :=
  ((l.dropWhile p).reverse.dropWhile p).reverse

/-- `alias.strip('"`' )` — strip double quotes and backquotes. -/
def stripQuotes (l : List Char) : List Char :=
  pyStripSet (fun c => c = dquote || c = backquote) l

/-- `query.rstrip(';')`. -/
def rstripSemi (l : List Char) : List Char :=
  (l.reverse.dropWhile (fun c => c = ';')).reverse

/-- Case-insensitive character equality (ASCII lowering, as `re.IGNORECASE`
behaves on these inputs). -/
def charEqCI (a b : Char) : Bool := a.toLower = b.toLower

/-- Does `s` start with `pat`, case-insensitively? -/
def startsWithCI : List Char → List Char → Bool
  | [], _ => true
  | _ :: _, [] => false
  | p :: ps, c :: cs => charEqCI p c && startsWithCI ps cs

/-- Plain (case-sensitive) prefix test. -/
def startsWithL : List Char → List Char → Bool
  | [], _ => true
  | _ :: _, [] => false
  | p :: ps, c :: cs => (p = c) && startsWithL ps cs

/-- Substring containment (Python `pat in s`). -/
def containsSub (pat : List Char) : List Char → Bool
  | [] => startsWithL pat []
  | c :: cs => startsWithL pat (c :: cs) || containsSub pat cs

/-- `re.sub(r'\s+', ' ', q)` — collapse every whitespace run to one space
(auxiliary carrying "previous char was whitespace"). -/
def collapseWsAux : Bool → List Char → List Char
  | _, [] => []
  | prevSp, c :: cs =>
    if pyIsSpace c then
      (if prevSp then collapseWsAux true cs else ' ' :: collapseWsAux true cs)
    else c :: collapseWsAux false cs

def collapseWs (l : List Char) : List Char := collapseWsAux false l

/-- `if not query.endswith(';'): query += ';'`. -/
def ensureSemi (l : List Char) : List Char :=
  if l.reverse.head? = some ';' then l else l ++ [';']

/-! ## The misspelling-correction table (`fix_simple_syntax_errors`)

Each pattern of the `common_mistakes` dict is one word or two words joined by
`\s+`, always ending in `\b`, matched case-insensitively; `re.sub` replaces
non-overlapping matches left to right. -/

structure CorrectionPat where
  w1 : List Char
  w2 : Option (List Char)

/-- Try to match a correction pattern at the head of `s`; return the rest of
the string after the matched span. The trailing `\b` requires the next
character to be absent or a non-word character. -/
def eatCI : List Char → List Char → Option (List Char)
  | [], t => some t
  | _ :: _, [] => none
  | a :: ps, c :: cs => if charEqCI a c then eatCI ps cs else none

def tryMatchPat (pat : CorrectionPat) (s : List Char) : Option (List Char) :=
  match eatCI pat.w1 s with
  | none => none
  | some rest =>
    let afterWords :=
      match pat.w2 with
      | none => some rest
      | some w2 =>
        let ws := rest.takeWhile pyIsSpace
        if ws.isEmpty then none
        else eatCI w2 (rest.drop ws.length)
    match afterWords with
    | none => none
    | some rest2 =>
      match rest2 with
      | [] => some []
      | c :: _ => if isWordChar c then none else some rest2

/-- `re.sub(pattern, repl, s)` for a correction pattern: scan left to right,
replace non-overlapping matches, continue after each match.  `fuel` bounds the
recursion by the input length (every match consumes at least one character). -/
def subScanFuel : Nat → CorrectionPat → List Char → List Char → List Char
  | 0, _, _, s => s
  | _ + 1, _, _, [] => []
  | fuel + 1, pat, repl, c :: cs =>
    match tryMatchPat pat (c :: cs) with
    | some rest => repl ++ subScanFuel fuel pat repl rest
    | none => c :: subScanFuel fuel pat repl cs

def reSubPat (pat : CorrectionPat) (repl : List Char) (s : List Char) : List Char :=
  subScanFuel s.length pat repl s

/-- The `common_mistakes` table, in source (dict-insertion) order. -/
def commonMistakes : List (CorrectionPat × List Char) :=
  [ (⟨"SELETC".toList, none⟩, "SELECT".toList)
  , (⟨"FROM".toList, some "FROM".toList⟩, "FROM".toList)
  , (⟨"WEHRE".toList, none⟩, "WHERE".toList)
  , (⟨"GROUPP".toList, some "BY".toList⟩, "GROUP BY".toList)
  , (⟨"ORDER".toList, some "BYY".toList⟩, "ORDER BY".toList)
  , (⟨"JOIN".toList, some "JOIN".toList⟩, "JOIN".toList)
  , (⟨"INNER".toList, some "INNER".toList⟩, "INNER".toList)
  , (⟨"HAVINGG".toList, none⟩, "HAVING".toList)
  , (⟨"WHERRE".toList, none⟩, "WHERE".toList) ]

/-- `SQLProcessor.fix_simple_syntax_errors` (process_query.py, lines 258-280):
strip, ensure a trailing `;`, collapse whitespace runs, then apply the
correction table in order. -/
def fix_simple_syntax_errors (query : List Char) : List Char :=
  let query := pyStrip query
  let query := ensureSemi query
  let query := collapseWs query
  commonMistakes.foldl (fun q pr => reSubPat pr.1 pr.2 q) query

/-! ## `parse_columns` — locating the projection list

`re.search(r"SELECT\s+(.+?)\s+FROM", query, re.DOTALL | re.IGNORECASE)`:
leftmost occurrence of `SELECT`, then a greedy whitespace run, then the lazy
(shortest) group followed by `\s+FROM`. -/

/-- Does `s` start with at least one whitespace character followed (after the
maximal whitespace run) by `FROM` (case-insensitively)?  This is exactly
`\s+FROM` anchored at the head: if the maximal run is consumed the next
characters must be `FROM`, and consuming a shorter run cannot succeed since
the following character would still be whitespace. -/
def wsThenFrom (s : List Char) : Bool :=
  match s with
  | [] => false
  | c :: _ => pyIsSpace c && startsWithCI "FROM".toList (s.dropWhile pyIsSpace)

/-- Lazy group `(.+?)` before `\s+FROM`: the shortest non-empty prefix whose
remainder matches `\s+FROM`. -/
def findGroupAux (acc : List Char) : List Char → Option (List Char)
  | [] => none
  | c :: cs =>
    let acc' := acc ++ [c]
    if wsThenFrom cs then some acc' else findGroupAux acc' cs

def findGroup (s : List Char) : Option (List Char) := findGroupAux [] s

/-- After the literal `SELECT`: the greedy `\s+` tries the maximal whitespace
run first and backtracks one character at a time; for each choice the lazy
group is sought in the remainder. -/
def afterSelectAux (s : List Char) : Nat → Option (List Char)
  | 0 => none
  | j + 1 =>
    match findGroup (s.drop (j + 1)) with
    | some g => some g
    | none => afterSelectAux s j

def afterSelect (s : List Char) : Option (List Char) :=
  afterSelectAux s (s.takeWhile pyIsSpace).length

/-- The captured projection list of the first match of
`SELECT\s+(.+?)\s+FROM`, scanning match start positions left to right. -/
def selectClauseOf : List Char → Option (List Char)
  | [] => none
  | c :: cs =>
    if startsWithCI "SELECT".toList (c :: cs) then
      match afterSelect ((c :: cs).drop 6) with
      | some g => some g
      | none => selectClauseOf cs
    else selectClauseOf cs

/-! ## `parse_columns` — splitting the projection list

The character-by-character scanner of lines 144-169: a single-quote toggle, a
parenthesis counter (which the source lets go negative, hence `Int`), and
top-level commas as separators.  At a separator the source appends
`current_col.strip()` unconditionally; the trailing fragment is appended only
if non-empty after stripping. -/

def splitFragments : List Char → List (List Char) → List Char → Int → Bool → List (List Char)
  | [], cols, cur, _, _ => if pyStrip cur ≠ [] then cols ++ [pyStrip cur] else cols
  | ch :: rest, cols, cur, depth, inQ =>
    if ch = squote && !inQ then splitFragments rest cols (cur ++ [ch]) depth true
    else if ch = squote && inQ then splitFragments rest cols (cur ++ [ch]) depth false
    else if ch = '(' && !inQ then splitFragments rest cols (cur ++ [ch]) (depth + 1) inQ
    else if ch = ')' && !inQ then splitFragments rest cols (cur ++ [ch]) (depth - 1) inQ
    else if ch = ',' && depth = 0 && !inQ then splitFragments rest (cols ++ [pyStrip cur]) [] depth inQ
    else splitFragments rest cols (cur ++ [ch]) depth inQ

/-! ## Alias resolution (lines 171-189) -/

/-- `re.search(r"\s+AS\s+([^\s,]+)$", col, re.IGNORECASE)` anchored at the
current position: `\s+`, `AS`, `\s+`, then a non-empty run of characters that
are neither whitespace nor commas reaching the end of the string.  Returns the
captured alias. -/
def aliasPatHere (s : List Char) : Option (List Char) :=
  let t := s.dropWhile pyIsSpace
  if t.length = s.length then none
  else if startsWithCI "AS".toList t then
    let u := t.drop 2
    let v := u.dropWhile pyIsSpace
    if v.length = u.length then none
    else if v ≠ [] && v.all (fun c => !pyIsSpace c && c ≠ ',') then some v
    else none
  else none

/-- Leftmost match of the alias pattern: scan start positions left to right,
accumulating the prefix before the match (`col[:alias_match.start()]`). -/
def findAliasAux (pre : List Char) : List Char → Option (List Char × List Char)
  | [] => none
  | c :: cs =>
    match aliasPatHere (c :: cs) with
    | some tok => some (pre, tok)
    | none => findAliasAux (pre ++ [c]) cs

def findAlias (col : List Char) : Option (List Char × List Char) := findAliasAux [] col

/-- Python `str.split()` — maximal non-whitespace runs. -/
def pySplitWsAux : List Char → List Char → List (List Char)
  | tok, [] => if tok = [] then [] else [tok.reverse]
  | tok, c :: cs =>
    if pyIsSpace c then
      (if tok = [] then pySplitWsAux [] cs else tok.reverse :: pySplitWsAux [] cs)
    else pySplitWsAux (c :: tok) cs

def pySplitWs (l : List Char) : List (List Char) := pySplitWsAux [] l

/-- Python `str.split('.')` (keeping empty segments). -/
def pySplitDot (l : List Char) : List (List Char) := l.splitOn '.'

/-- Resolve one projection fragment to `(expression, alias)` following lines
174-189: explicit `AS`, else a trailing bare token without parentheses, else
the last dot segment of a qualified name, else the expression itself. -/
def resolveAlias (col : List Char) : List Char × List Char :=
  match findAlias col with
  | some (pre, tok) => (pyStrip pre, stripQuotes tok)
  | none =>
    let parts := pySplitWs col
    let lastPart := parts.getLastD []
    if parts.length > 1 && !('(' ∈ lastPart || ')' ∈ lastPart) then
      (pyStrip (List.intercalate [' '] parts.dropLast), stripQuotes lastPart)
    else
      let column := pyStrip col
      if '.' ∈ column && '(' ∉ column then
        (column, stripQuotes ((pySplitDot column).getLastD []))
      else (column, stripQuotes column)

/-! ## `infer_column_type` (lines 64-105) -/

/-- `^\s*\d+\s*$`. -/
def isIntLit (s : List Char) : Bool :=
  let t := s.dropWhile pyIsSpace
  let d := t.takeWhile Char.isDigit
  !d.isEmpty && (t.drop d.length).all pyIsSpace

/-- `^\s*\d+\.\d+\s*$`. -/
def isDecLit (s : List Char) : Bool :=
  let t := s.dropWhile pyIsSpace
  let d := t.takeWhile Char.isDigit
  match t.drop d.length with
  | '.' :: u =>
    let d2 := u.takeWhile Char.isDigit
    !d.isEmpty && !d2.isEmpty && (u.drop d2.length).all pyIsSpace
  | _ => false

/-- `^\s*'.*'\s*$` (no DOTALL: the greedy `.*` cannot cross a newline; the
closing quote is the last one followed only by whitespace). -/
def isQuotedLit (s : List Char) : Bool :=
  let t := s.dropWhile pyIsSpace
  match t with
  | c :: u =>
    c = squote &&
      (let v := (u.reverse.dropWhile pyIsSpace)
       match v with
       | d :: mid => d = squote && mid.reverse.all (fun x => x ≠ '\n')
       | [] => false)
  | [] => false

/-- `name\s*\(` searched anywhere in the (already lowered) string. -/
def fnCallAt (name : List Char) (s : List Char) : Bool :=
  startsWithL name s && ((s.drop name.length).dropWhile pyIsSpace).head? = some '('

def containsFnCall (name : List Char) : List Char → Bool
  | [] => fnCallAt name []
  | c :: cs => fnCallAt name (c :: cs) || containsFnCall name cs

/-- `\s+as\s+(\w+)` anchored at the current position (all lower case here):
whitespace run, `as`, whitespace run, then the greedy word-character capture. -/
def wsAsWsWord (s : List Char) : Option (List Char) :=
  let t := s.dropWhile pyIsSpace
  if t.length = s.length then none
  else if startsWithL "as".toList t then
    let u := t.drop 2
    let v := u.dropWhile pyIsSpace
    if v.length = u.length then none
    else
      let w := v.takeWhile isWordChar
      if w.isEmpty then none else some w
  else none

/-- The greedy `.+` of `cast\s*\(.+\s+as\s+(\w+)`: after the opening
parenthesis take the longest non-newline span (backtracking downward) whose
remainder matches `\s+as\s+(\w+)`; so the capture is the last such `as` target
in the non-newline region. -/
def castScanI (rest : List Char) : Nat → Option (List Char)
  | 0 => none
  | i + 1 =>
    match wsAsWsWord (rest.drop (i + 1)) with
    | some w => some w
    | none => castScanI rest i

def castAfterParen (rest : List Char) : Option (List Char) :=
  castScanI rest (rest.takeWhile (fun c => c ≠ '\n')).length

/-- Leftmost full match of `cast\s*\(.+\s+as\s+(\w+)` in the lowered
expression (scanning start positions left to right). -/
def castTarget : List Char → Option (List Char)
  | [] => none
  | c :: cs =>
    let here :=
      if startsWithL "cast".toList (c :: cs) then
        match ((c :: cs).drop 4).dropWhile pyIsSpace with
        | '(' :: rest => castAfterParen rest
        | _ => none
      else none
    match here with
    | some w => some w
    | none => castTarget cs

/-- `SQL_TYPE_MAPPING`, in dict-insertion order; the lookup tests whether any
member name is a substring of the cast target. -/
def sqlTypeMapping : List (String × List (List Char)) :=
  [ ("integer", ["int".toList, "integer".toList, "smallint".toList, "bigint".toList, "tinyint".toList])
  , ("decimal", ["decimal".toList, "numeric".toList, "float".toList, "double".toList, "real".toList])
  , ("string", ["varchar".toList, "char".toList, "text".toList, "string".toList, "nvarchar".toList, "nchar".toList])
  , ("date", ["date".toList, "datetime".toList, "timestamp".toList, "time".toList])
  , ("boolean", ["boolean".toList, "bool".toList])
  , ("binary", ["binary".toList, "varbinary".toList, "blob".toList]) ]

def categoryOfCast (castType : List Char) : Option String :=
  (sqlTypeMapping.find? (fun p => p.2.any (fun t => containsSub t castType))).map (·.1)

/-- `SQLProcessor.infer_column_type` (lines 64-105). -/
def infer_column_type (columnExpr : List Char) : String :=
  let exprLower := columnExpr.map Char.toLower
  if isIntLit columnExpr then "integer"
  else if isDecLit columnExpr then "decimal"
  else if isQuotedLit columnExpr then "string"
  else if containsFnCall "count".toList exprLower then "integer"
  else if containsFnCall "sum".toList exprLower then "decimal"
  else if containsFnCall "avg".toList exprLower then "decimal"
  else if containsFnCall "min".toList exprLower || containsFnCall "max".toList exprLower then "unknown"
  else if containsSub "date".toList exprLower || containsSub "current_date".toList exprLower
      || containsSub "getdate".toList exprLower || containsSub "now".toList exprLower then "date"
  else if containsSub "concat".toList exprLower || containsSub "substring".toList exprLower
      || containsSub "trim".toList exprLower || containsSub "lower".toList exprLower
      || containsSub "upper".toList exprLower then "string"
  else
    match castTarget exprLower with
    | some ct =>
      match categoryOfCast ct with
      | some cat => cat
      | none => "unknown"
    | none => "unknown"

/-- One parsed projection: (expression, alias, inferred type). -/
abbrev ColTriple := List Char × List Char × String

/-- `SQLProcessor.parse_columns` (lines 125-198).  `sqlparse.format` is
modelled as the identity (see the header); a query with no locatable
`SELECT ... FROM` yields `[]`; a projection list containing `*` anywhere
(after stripping) yields the single wildcard marker. -/
def parse_columns (query : List Char) : List ColTriple :=
  match selectClauseOf query with
  | none => []
  | some selectClause =>
    if '*' ∈ pyStrip selectClause then [(['*'], ['*'], "unknown")]
    else
      (splitFragments selectClause [] [] 0 false).map
        (fun col =>
          let ca := resolveAlias col
          (ca.1, ca.2, infer_column_type ca.1))

/-! ## Type compatibility (lines 107-123 and 282-316) -/

/-- `SQLProcessor.are_types_compatible` (lines 107-123). -/
def are_types_compatible (type1 type2 : String) : Bool :=
  if type1 = type2 then true
  else if type1 = "unknown" ∨ type2 = "unknown" then true
  else if (type1 = "integer" ∨ type1 = "decimal") ∧ (type2 = "integer" ∨ type2 = "decimal") then true
  else if (type1 = "string" ∨ type1 = "date") ∧ (type2 = "string" ∨ type2 = "date") then true
  else false

/-- The warning string of lines 310-314 (`query_indices[i]+1` is applied by
the caller, as in the f-string). -/
def mkWarning (al : List Char) (q1 : Nat) (t1 : String) (q2 : Nat) (t2 : String) : String :=
  "⚠️ Possível incompatibilidade de tipos para coluna '" ++ String.mk al ++
    "': Query " ++ toString q1 ++ " usa tipo '" ++ t1 ++
    "', Query " ++ toString q2 ++ " usa tipo '" ++ t2 ++ "'"

/-- Appending one `(query_idx, inferred_type)` observation to the
`alias_to_types` dict (insertion-ordered, append-at-end semantics of
lines 291-295). -/
def aliasToTypesAdd (d : List (List Char × List (Nat × String))) (al : List Char)
    (v : Nat × String) : List (List Char × List (Nat × String)) :=
  match d with
  | [] => [(al, [v])]
  | (a, vs) :: rest =>
    if a = al then (a, vs ++ [v]) :: rest else (a, vs) :: aliasToTypesAdd rest al v

/-- `alias_to_types` grouping of lines 290-295. -/
def aliasToTypes (allColumnSets : List (Nat × List ColTriple)) :
    List (List Char × List (Nat × String)) :=
  allColumnSets.foldl
    (fun d p => p.2.foldl (fun d c => aliasToTypesAdd d c.2.1 (p.1, c.2.2)) d) []

/-- The double index loop of lines 307-314 for one alias:
`for i, type1 in enumerate(types): for j, type2 in enumerate(types[i+1:], i+1)`,
appending a warning for each incompatible pair. -/
def checkAliasPairs (al : List Char) (typeInfo : List (Nat × String)) : List String :=
  (typeInfo.map (·.2)).enum.foldl
    (fun ws p =>
      ((((typeInfo.map (·.2)).drop (p.1 + 1)).enum).map (fun q => (q.1 + (p.1 + 1), q.2))).foldl
        (fun ws q =>
          if are_types_compatible p.2 q.2 then ws
          else ws ++ [mkWarning al ((typeInfo.map (·.1)).getD p.1 0 + 1) p.2
                        ((typeInfo.map (·.1)).getD q.1 0 + 1) q.2])
        ws)
    []

/-- `SQLProcessor.check_type_compatibility` (lines 282-316): group the parsed
columns by alias, skip aliases used by at most one query, and collect the
pairwise warnings. -/
def check_type_compatibility (allColumnSets : List (Nat × List ColTriple)) : List String :=
  (aliasToTypes allColumnSets).foldl
    (fun ws p => if p.2.length ≤ 1 then ws else ws ++ checkAliasPairs p.1 p.2) []

/-! ## `unify_queries` (lines 318-365) -/

/-- Lexicographic code-point order on char lists — Python `sorted` on
strings. -/
def lexLe : List Char → List Char → Bool
  | [], _ => true
  | _ :: _, [] => false
  | a :: as', b :: bs => if a < b then true else if b < a then false else lexLe as' bs

def insSorted (a : List Char) : List (List Char) → List (List Char)
  | [] => [a]
  | b :: bs => if lexLe a b then a :: b :: bs else b :: insSorted a bs

/-- `sorted(...)` over the alias set (the elements are pairwise distinct, so
any correct sort produces Python's result). -/
def sortStrings (l : List (List Char)) : List (List Char) := l.foldr insSorted []

/-- `all_aliases.add(alias)` — the set of lines 335-338, modelled as an
insertion-ordered duplicate-free list (only its sorted form is ever used). -/
def addAlias (l : List (List Char)) (a : List Char) : List (List Char) :=
  if a ∈ l then l else l ++ [a]

/-- the `column_dict` comprehension of line 348 (alias to (column, type))
— dict-comprehension semantics: later occurrences of an alias override the
stored value but keep the first position. -/
def dictInsert (d : List (List Char × (List Char × String))) (k : List Char)
    (v : List Char × String) : List (List Char × (List Char × String)) :=
  match d with
  | [] => [(k, v)]
  | (a, w) :: rest => if a = k then (a, v) :: rest else (a, w) :: dictInsert rest k v

def buildColumnDict (columns : List ColTriple) : List (List Char × (List Char × String)) :=
  columns.foldl (fun d c => dictInsert d c.2.1 (c.1, c.2.2)) []

def dictFind (d : List (List Char × (List Char × String))) (k : List Char) :
    Option (List Char × String) :=
  (d.find? (fun p => p.1 = k)).map (·.2)

/-- Decimal digits of a `Nat` (for the `cte<n>` names). -/
def natChars (n : Nat) : List Char := (Nat.repr n).toList

/-- `fixed_queries = [fix_simple_syntax_errors(q) for q in queries]`. -/
def fixedQueriesOf (queries : List (List Char)) : List (List Char) :=
  queries.map fix_simple_syntax_errors

/-- `all_column_sets` of lines 325-329 (the `extract_query_components` call of
the same loop feeds only log messages and is dropped). -/
def allColumnSetsOf (queries : List (List Char)) : List (Nat × List ColTriple) :=
  (fixedQueriesOf queries).enum.map (fun p => (p.1, parse_columns p.2))

/-- The alias set of lines 335-338. -/
def allAliasesOf (queries : List (List Char)) : List (List Char) :=
  (allColumnSetsOf queries).foldl
    (fun acc p => p.2.foldl (fun acc c => addAlias acc c.2.1) acc) []

/-- `sorted(all_aliases)` as used in line 350. -/
def sortedAliasesOf (queries : List (List Char)) : List (List Char) :=
  sortStrings (allAliasesOf queries)

/-- One CTE of lines 344-347: `f"{cte_name} AS (\n  {query}\n)"` with the
fixed query stripped of trailing semicolons. -/
def cteFor (queryIdx : Nat) (fixedQuery : List Char) : List Char :=
  "cte".toList ++ natChars (queryIdx + 1) ++ " AS (\n  ".toList ++ rstripSemi fixedQuery ++ "\n)".toList

/-- The aligned projection list of lines 348-355: for each alias in sorted
order, the stored expression if the source defines the alias, else
`NULL AS <alias>`. -/
def unionColumnsFor (sortedAliases : List (List Char)) (columns : List ColTriple) :
    List (List Char) :=
  let columnDict := buildColumnDict columns
  sortedAliases.foldl
    (fun acc al =>
      match dictFind columnDict al with
      | some cv => acc ++ [cv.1]
      | none => acc ++ ["NULL AS ".toList ++ al])
    []

/-- One outer select of line 356. -/
def unionQueryFor (queryIdx : Nat) (sortedAliases : List (List Char))
    (columns : List ColTriple) : List Char :=
  "SELECT ".toList ++ List.intercalate ", ".toList (unionColumnsFor sortedAliases columns) ++
    " FROM cte".toList ++ natChars (queryIdx + 1)

/-- The per-source aligned projection lists (one per entry of
`all_column_sets`, i.e. one per input query). -/
def unionBlocksOf (queries : List (List Char)) : List (List (List Char)) :=
  (allColumnSetsOf queries).map (fun p => unionColumnsFor (sortedAliasesOf queries) p.2)

/-- The `ctes` list of the assembly loop (lines 340-347). -/
def ctesOf (queries : List (List Char)) : List (List Char) :=
  (allColumnSetsOf queries).map (fun p => cteFor p.1 ((fixedQueriesOf queries).getD p.1 []))

/-- The `union_queries` list of the assembly loop (lines 348-357). -/
def unionQueriesOf (queries : List (List Char)) : List (List Char) :=
  (allColumnSetsOf queries).map (fun p => unionQueryFor p.1 (sortedAliasesOf queries) p.2)

/-- `SQLProcessor.unify_queries` (lines 318-365), with the mutable
`self.type_warnings` threaded explicitly: the result is the new
`type_warnings` state and the returned SQL text.  An empty input returns `""`
before the state is reset; otherwise the state is cleared and replaced by the
compatibility warnings, and the final query is assembled (lines 358-364). -/
def unify_queries (typeWarnings : List String) (queries : List (List Char)) :
    List String × List Char :=
  if queries = [] then (typeWarnings, [])
  else
    let newWarnings := check_type_compatibility (allColumnSetsOf queries)
    let withClause := "WITH ".toList ++ List.intercalate ",\n".toList (ctesOf queries)
    let unionClause := List.intercalate "\nUNION ALL\n".toList (unionQueriesOf queries)
    let finalQuery :=
      withClause ++ "\n".toList ++ "-- Query final unificada\n".toList ++
        "SELECT * FROM (\n".toList ++ unionClause ++ "\n) AS unified_result;".toList
    (newWarnings, finalQuery)

/-! ## Schema-fusion mode — `OrionQueryUnifier` (src/aws version/definitive.py)

The pure computation of `analyze_table_schemas` (lines 192-237) and
`generate_unified_query` (lines 239-342); the Athena calls that produce the
schemas are external collaborators. -/

/-- One table schema as processed by `analyze_table_schemas`:
(table name, list of (column name, declared type)). -/
abbrev TableSchema := List Char × List (List Char × String)

/-- Add one (column, type) observation to `column_types`: create the entry on
first sight, append the type only if not already present (lines 214-224). -/
def columnTypesAdd (d : List (List Char × List String)) (name : List Char) (ty : String) :
    List (List Char × List String) :=
  match d with
  | [] => [(name, [ty])]
  | (a, ts) :: rest =>
    if a = name then (a, if ty ∈ ts then ts else ts ++ [ty]) :: rest
    else (a, ts) :: columnTypesAdd rest name ty

/-- `OrionQueryUnifier.analyze_table_schemas` (lines 192-237): returns
`column_types` (insertion-ordered) and `all_columns` (a set, modelled as an
insertion-ordered duplicate-free list; only sorted forms are consumed).
The inconsistency report of lines 226-235 is logging only. -/
def analyze_table_schemas (schemas : List TableSchema) :
    List (List Char × List String) × List (List Char) :=
  schemas.foldl
    (fun acc schema =>
      schema.2.foldl
        (fun acc col =>
          (columnTypesAdd acc.1 col.1 col.2, addAlias acc.2 col.1))
        acc)
    ([], [])

/-- The per-column harmonized cast target of lines 262-282: literal membership
tests, in source order, over the list of declared type strings. -/
def columnFinalType (types : List String) : String :=
  if "string" ∈ types then "string"
  else if "double" ∈ types ∨ "float" ∈ types then "double"
  else if "integer" ∈ types ∨ "int" ∈ types ∨ "bigint" ∈ types then "bigint"
  else if "boolean" ∈ types then "boolean"
  else if "date" ∈ types ∨ "timestamp" ∈ types then
    (if "timestamp" ∈ types then "timestamp" else "date")
  else types.headD ""

/-- `column_final_types` (lines 263-282). -/
def columnFinalTypes (columnTypes : List (List Char × List String)) :
    List (List Char × String) :=
  columnTypes.map (fun p => (p.1, columnFinalType p.2))

/-- `column_final_types.get(col, 'string')`. -/
def finalTypeFor (cft : List (List Char × String)) (col : List Char) : String :=
  ((cft.find? (fun p => p.1 = col)).map (·.2)).getD "string"

/-- The `final_column_parts` loop of lines 284-301: for each column in sorted
order, `COALESCE(cte_0.col, cte_1.col, ...)` over the CTE names `cte_<i>`,
wrapped in a `CAST` to the harmonized type unless that type is
`string`/`varchar`. -/
def finalColumnParts (tableNames : List (List Char))
    (columnTypes : List (List Char × List String)) (allColumns : List (List Char)) :
    List (List Char) :=
  let cft := columnFinalTypes columnTypes
  (sortStrings allColumns).map (fun col =>
    let finalType := finalTypeFor cft col
    let castParts := tableNames.enum.map
      (fun p => "cte_".toList ++ natChars p.1 ++ [Char.ofNat 46] ++ col)
    let coalesceStmt := "COALESCE(".toList ++ List.intercalate ", ".toList castParts ++ ")".toList
    if finalType ≠ "string" ∧ finalType ≠ "varchar" then
      "CAST(".toList ++ coalesceStmt ++ " AS ".toList ++ finalType.toList ++ ") AS ".toList ++ col
    else coalesceStmt ++ " AS ".toList ++ col)

/-- One CTE of lines 303-319: selects every column of `sorted(all_columns)`
from `<database>.<table>`. -/
def fusionCteFor (i : Nat) (table database : List Char) (allColumns : List (List Char)) :
    List Char :=
  "\ncte_".toList ++ natChars i ++ " AS (\n    SELECT \n        ".toList ++
    List.intercalate ", ".toList (sortStrings allColumns) ++
    "\n    FROM ".toList ++ database ++ [Char.ofNat 46] ++ table ++ "\n)".toList

/-- `OrionQueryUnifier.generate_unified_query` (lines 239-342): the CTEs, the
COALESCE/CAST projection, and the unconditioned `FULL OUTER JOIN ... ON 1=1`
chain. -/
def generate_unified_query (tableNames : List (List Char)) (database : List Char)
    (columnTypes : List (List Char × List String)) (allColumns : List (List Char)) :
    List Char :=
  let cteStatements := tableNames.enum.map (fun p => fusionCteFor p.1 p.2 database allColumns)
  let joins := (List.range tableNames.length).drop 1 |>.map
    (fun i => "FULL OUTER JOIN cte_".toList ++ natChars i ++ " ON 1=1".toList)
  "WITH \n".toList ++ List.intercalate ", ".toList cteStatements ++
    "\n\nSELECT\n    ".toList ++
    List.intercalate ", ".toList (finalColumnParts tableNames columnTypes allColumns) ++
    "\nFROM cte_0\n".toList ++ List.intercalate " ".toList joins ++ "\n".toList

/-! ## `generate_athena_query` (src/aws version/query_generator.py) -/

/-- One transformation dict with the keys the source reads
(`'coluna'`, `'acao'`, `'motivo'`). -/
structure Transformation where
  coluna : Option String
  acao : Option String
  motivo : Option String

/-- Python dict-comprehension insert: later values override, first position
kept. -/
def dictInsertS (d : List (String × String)) (k v : String) : List (String × String) :=
  match d with
  | [] => [(k, v)]
  | (a, w) :: rest => if a = k then (a, v) :: rest else (a, w) :: dictInsertS rest k v

/-- `generate_athena_query` (query_generator.py, lines 4-52): raises
`ValueError` (modelled as `Except.error`) when fewer than two tables are
supplied; otherwise assembles the SELECT with the requested casts and the
`FULL OUTER JOIN ... USING (chave_comum)` chain, and strips the result. -/
def generate_athena_query (tables : List String) (transformations : List Transformation) :
    Except String String :=
  if tables = [] ∨ tables.length < 2 then
    Except.error "At least two tables are required to generate a query."
  else
    let transformationsDict := transformations.foldl
      (fun d t =>
        match t.coluna, t.acao with
        | some c, some a => dictInsertS d c a
        | _, _ => d)
      []
    let selectClauseParts := transformationsDict.map
      (fun p =>
        if p.2 = "converter_para_string" then "CAST(" ++ p.1 ++ " AS STRING) AS " ++ p.1
        else if p.2 = "converter_para_float" then "CAST(" ++ p.1 ++ " AS FLOAT) AS " ++ p.1
        else p.1)
    let selectClause :=
      if selectClauseParts ≠ [] then String.intercalate ", " selectClauseParts else "*"
    let fromClause := "FROM " ++ tables.getD 0 ""
    let joinClause := String.intercalate " "
      ((tables.drop 1).map (fun t => "FULL OUTER JOIN " ++ t ++ " USING (chave_comum)"))
    let query := "\n    SELECT " ++ selectClause ++ "\n    " ++ fromClause ++ "\n    " ++
      joinClause ++ "\n    ;\n    "
    Except.ok (String.mk (pyStrip query.toList))

/-! ## Spec-side characterizations and concrete inputs

Definitions below restate parts of the specification in closed form, to be
compared with the loop-structured translations above; they are not
translations of source loops. -/

/-- Specification reading of one aligned entry (§4.5): the source's own
expression when it defines the alias, otherwise a `NULL` placeholder carrying
the alias. -/
def alignedEntry (columnDict : List (List Char × (List Char × String))) (al : List Char) :
    List Char :=
  match dictFind columnDict al with
  | some cv => cv.1
  | none => "NULL AS ".toList ++ al

/-- Specification reading of §4.4: for every ordered pair of occurrences
(`i < j`) of an alias, a warning exactly when the two inferred types are
incompatible. -/
def incompatiblePairWarnings (al : List Char) (typeInfo : List (Nat × String)) : List String :=
  typeInfo.enum.flatMap (fun p =>
    (typeInfo.drop (p.1 + 1)).flatMap (fun q =>
      if are_types_compatible p.2.2 q.2 then []
      else [mkWarning al (p.2.1 + 1) p.2.2 (q.1 + 1) q.2]))

/-- Scenario 1 inputs (spec §8). -/
def scenario1Queries : List (List Char) :=
  ["SELECT a, b AS bb FROM t1".toList, "SELECT a, c AS cc FROM t2".toList]

/-- Scenario 2 inputs (spec §8). -/
def scenario2Queries : List (List Char) :=
  ["SELECT * FROM t1".toList, "SELECT x FROM t2".toList]

/-- A pair whose first source has no locatable `SELECT ... FROM` boundary. -/
def unparsablePairQueries : List (List Char) :=
  ["no select here".toList, "SELECT x FROM t".toList]

/-- Scenario 3 schemas: table A declares `amount:int`, table B declares
`amount:double`. -/
def scenario3Schemas : List TableSchema :=
  [("tablea".toList, [("amount".toList, "int")]),
   ("tableb".toList, [("amount".toList, "double")])]

/-! # Theorems -/

/-! ## General helper lemmas -/

theorem foldl_append_flatMap {β γ : Type} (g : β → List γ) :
    ∀ (l : List β) (init : List γ),
      l.foldl (fun acc b => acc ++ g b) init = init ++ l.flatMap g := by
  intro l
  induction l with
  | nil => intro init; simp
  | cons a t ih => intro init; simp [ih, List.flatMap_cons]

theorem mem_dropWhile_of_mem {p : Char → Bool} {c : Char} :
    ∀ {l : List Char}, c ∈ l → p c = false → c ∈ l.dropWhile p := by
  intro l
  induction l with
  | nil => intro h; cases h
  | cons a t ih =>
    intro hc hp
    by_cases ha : p a = true
    · rw [List.dropWhile_cons_of_pos ha]
      rcases List.mem_cons.mp hc with h | h
      · subst h; rw [hp] at ha; cases ha
      · exact ih h hp
    · rw [List.dropWhile_cons_of_neg ha]
      exact hc

theorem mem_pyStrip_of_mem {c : Char} {l : List Char} (hc : c ∈ l)
    (hp : pyIsSpace c = false) : c ∈ pyStrip l := by
  unfold pyStrip
  rw [List.mem_reverse]
  apply mem_dropWhile_of_mem _ hp
  rw [List.mem_reverse]
  exact mem_dropWhile_of_mem hc hp

theorem mem_of_mem_pyStrip {c : Char} {l : List Char} (hc : c ∈ pyStrip l) : c ∈ l := by
  unfold pyStrip at hc
  rw [List.mem_reverse] at hc
  have h1 := (List.dropWhile_sublist (l := (l.dropWhile pyIsSpace).reverse) pyIsSpace).mem hc
  rw [List.mem_reverse] at h1
  exact (List.dropWhile_sublist pyIsSpace).mem h1

/-! ## C10 -/

/-- C10: calling `unify_queries` on an empty list returns the empty string
without failing, and the accumulated `type_warnings` state is passed through
unchanged (the reset happens only after the empty-input check). -/
theorem c10_empty_input_preserves_warnings (typeWarnings : List String) :
    unify_queries typeWarnings [] = (typeWarnings, []) := rfl

/-! ## C1 -/

/-- C1 (code bug): on Scenario 1 the engine produces the claimed AliasUnion
and CTE/UNION/wrapper shape, but the aligned blocks emit the source
*expressions* (`b`, `c`) instead of the aliases (`bb`, `cc`) the outer selects
would need: the output is `SELECT a, b, NULL AS cc FROM cte1` (and
symmetrically `c` for `cte2`), even though `cte1` only exposes the columns
`a` and `bb`. -/
theorem c1_scenario1_emits_expression_not_alias :
    unify_queries [] scenario1Queries =
      ([], ("WITH cte1 AS (\n  SELECT a, b AS bb FROM t1\n),\ncte2 AS (\n  SELECT a, c AS cc FROM t2\n)\n-- Query final unificada\nSELECT * FROM (\nSELECT a, b, NULL AS cc FROM cte1\nUNION ALL\nSELECT a, NULL AS bb, c FROM cte2\n) AS unified_result;").toList)
    ∧ sortedAliasesOf scenario1Queries = ["a".toList, "bb".toList, "cc".toList]
    ∧ unionBlocksOf scenario1Queries =
        [["a".toList, "b".toList, "NULL AS cc".toList],
         ["a".toList, "NULL AS bb".toList, "c".toList]] :=
  ⟨rfl, rfl, rfl⟩

/-! ## C2 -/

/-- C2 (counterexample): on Scenario 2 the wildcard source is *not* excluded
from the AliasUnion — the marker alias `*` joins it, so the AliasUnion is
`{*, x}` rather than the `{x}` the claim requires. -/
theorem c2_wildcard_joins_alias_union :
    sortedAliasesOf scenario2Queries = ["*".toList, "x".toList]
    ∧ sortedAliasesOf scenario2Queries ≠ ["x".toList] :=
  ⟨rfl, by decide⟩

/-- C2 (amended): a wildcard projection is reduced to the single marker
`('*', '*', 'unknown')` (with only a log warning, nothing in any returned
diagnostic), the marker's alias `*` enters the AliasUnion, and the source is
assembled like any other — Scenario 2 yields the blocks
`SELECT *, NULL AS x FROM cte1` and `SELECT NULL AS *, x FROM cte2` and an
empty warning list. -/
theorem c2_amended_wildcard_marker_merged :
    parse_columns "SELECT * FROM t1".toList = [(['*'], ['*'], "unknown")]
    ∧ unify_queries [] scenario2Queries =
        ([], ("WITH cte1 AS (\n  SELECT * FROM t1\n),\ncte2 AS (\n  SELECT x FROM t2\n)\n-- Query final unificada\nSELECT * FROM (\nSELECT *, NULL AS x FROM cte1\nUNION ALL\nSELECT NULL AS *, x FROM cte2\n) AS unified_result;").toList)
    ∧ unionBlocksOf scenario2Queries =
        [["*".toList, "NULL AS x".toList], ["NULL AS *".toList, "x".toList]] :=
  ⟨rfl, rfl, rfl⟩

/-! ## C3 -/

/-- C3 (counterexample): `unify_queries` invoked with exactly one source does
not fail — it produces a complete (non-empty) unified query wrapping the
single source. -/
theorem c3_single_source_still_produces_sql :
    (unify_queries [] ["SELECT a FROM t1".toList]).2 =
      ("WITH cte1 AS (\n  SELECT a FROM t1\n)\n-- Query final unificada\nSELECT * FROM (\nSELECT a FROM cte1\n) AS unified_result;").toList
    ∧ (unify_queries [] ["SELECT a FROM t1".toList]).2 ≠ [] :=
  ⟨rfl, by decide⟩

/-- C3 (amended): the fewer-than-two-sources guard exists only in
`generate_athena_query` (query_generator.py), which raises `ValueError`
(modelled as `Except.error`) for any table list of length < 2;
`unify_queries` (process_query.py) accepts a single source and produces a
unified query for it, returning the empty string only for zero sources. -/
theorem c3_amended_guard_only_in_athena_generator :
    (∀ (tables : List String) (transformations : List Transformation),
      tables.length < 2 →
        generate_athena_query tables transformations =
          Except.error "At least two tables are required to generate a query.")
    ∧ (unify_queries [] ["SELECT a FROM t1".toList]).2 ≠ []
    ∧ (unify_queries [] []).2 = [] := by
  refine ⟨?_, by decide, rfl⟩
  intro tables transformations h
  unfold generate_athena_query
  rw [if_pos (Or.inr h)]

/-- Witness for `c3_amended_guard_only_in_athena_generator` at the concrete
single-table input of the source's own `__main__` block. -/
theorem c3_amended_witness :
    generate_athena_query ["table1"] [] =
      Except.error "At least two tables are required to generate a query." :=
  c3_amended_guard_only_in_athena_generator.1 ["table1"] [] (by decide)

/-! ## C6 -/

/-- C6 (counterexample): `fix_simple_syntax_errors` is not idempotent — on
`FROM FROM FROM` one pass collapses only the first doubled keyword. -/
theorem c6_normalizer_not_idempotent :
    fix_simple_syntax_errors (fix_simple_syntax_errors "FROM FROM FROM".toList) ≠
      fix_simple_syntax_errors "FROM FROM FROM".toList := by decide

/-- C6 (amended): the normalizer is a pure total function but not idempotent:
each pass rewrites non-overlapping matches once, so a tripled keyword such as
`FROM FROM FROM` normalizes to `FROM FROM;` and only a second pass reaches
`FROM;`.  On inputs whose single pass leaves no correctable mistake —
e.g. Scenario 5's `SELETC id FORM t`, where `SELETC` is corrected and `FORM`
untouched — the result is a fixed point. -/
theorem c6_amended_concrete_idempotence_bounds :
    fix_simple_syntax_errors "FROM FROM FROM".toList = "FROM FROM;".toList
    ∧ fix_simple_syntax_errors "FROM FROM;".toList = "FROM;".toList
    ∧ fix_simple_syntax_errors "SELETC id FORM t".toList = "SELECT id FORM t;".toList
    ∧ fix_simple_syntax_errors "SELECT id FORM t;".toList = "SELECT id FORM t;".toList :=
  ⟨rfl, rfl, rfl, rfl⟩

/-! ## C7 -/

/-- C7 (counterexample): the schema-fusion CTEs are named `cte_0`, `cte_1`
(underscored), so the Scenario 3 projection is
`CAST(COALESCE(cte_0.amount, cte_1.amount) AS double) AS amount`, not the
claimed `CAST(COALESCE(cte0.amount, cte1.amount) AS double) AS amount`. -/
theorem c7_projection_uses_cte_underscore_names :
    finalColumnParts ["tablea".toList, "tableb".toList]
        [("amount".toList, ["int", "double"])] ["amount".toList] =
      ["CAST(COALESCE(cte_0.amount, cte_1.amount) AS double) AS amount".toList]
    ∧ ["CAST(COALESCE(cte_0.amount, cte_1.amount) AS double) AS amount".toList] ≠
        (["CAST(COALESCE(cte0.amount, cte1.amount) AS double) AS amount".toList] :
          List (List Char)) :=
  ⟨rfl, by decide⟩

/-- C7 (amended): the harmonization priority tests literal type names in
order — `string`, then `double`/`float` (cast target `double`), then
`integer`/`int`/`bigint` (target `bigint`), then `boolean`, then
`timestamp` preferred over `date`, else the first type seen.  For Scenario 3
(`amount:int` vs `amount:double`) the harmonized target is `double` and the
projection is `CAST(COALESCE(cte_0.amount, cte_1.amount) AS double) AS amount`
with the underscored CTE names.  A declared `decimal` is *not* recognized by
the double/float test (it falls through; with an `int` alongside the target
becomes `bigint`). -/
theorem c7_amended_harmonization :
    analyze_table_schemas scenario3Schemas =
      ([("amount".toList, ["int", "double"])], ["amount".toList])
    ∧ columnFinalType ["int", "double"] = "double"
    ∧ finalColumnParts ["tablea".toList, "tableb".toList]
        [("amount".toList, ["int", "double"])] ["amount".toList] =
      ["CAST(COALESCE(cte_0.amount, cte_1.amount) AS double) AS amount".toList]
    ∧ columnFinalType ["decimal", "int"] = "bigint" :=
  ⟨rfl, rfl, rfl, rfl⟩

/-! ## Alignment lemmas (C4, C5) -/

theorem allColumnSetsOf_length (qs : List (List Char)) :
    (allColumnSetsOf qs).length = qs.length := by
  simp [allColumnSetsOf, fixedQueriesOf]

theorem unionColumnsFor_eq_map (sorted : List (List Char)) (columns : List ColTriple) :
    unionColumnsFor sorted columns = sorted.map (alignedEntry (buildColumnDict columns)) := by
  unfold unionColumnsFor
  generalize buildColumnDict columns = d
  have key : ∀ (l : List (List Char)) (init : List (List Char)),
      l.foldl (fun acc al =>
        match dictFind d al with
        | some cv => acc ++ [cv.1]
        | none => acc ++ ["NULL AS ".toList ++ al]) init = init ++ l.map (alignedEntry d) := by
    intro l
    induction l with
    | nil => intro init; simp
    | cons a t ih =>
      intro init
      simp only [List.foldl_cons, List.map_cons]
      rw [ih]
      cases h : dictFind d a <;> simp [alignedEntry, h]
  simpa using key sorted []

theorem insSorted_length (a : List Char) :
    ∀ l : List (List Char), (insSorted a l).length = l.length + 1 := by
  intro l
  induction l with
  | nil => rfl
  | cons b t ih =>
    unfold insSorted
    split
    · simp
    · simp [ih]

theorem sortStrings_length (l : List (List Char)) : (sortStrings l).length = l.length := by
  unfold sortStrings
  induction l with
  | nil => rfl
  | cons a t ih => simp [List.foldr_cons, insSorted_length, ih]

theorem lexLe_total (a b : List Char) : lexLe a b = true ∨ lexLe b a = true := by
  induction a generalizing b with
  | nil => left; rfl
  | cons x xs ih =>
    cases b with
    | nil => right; rfl
    | cons y ys =>
      by_cases hxy : x < y
      · left; simp [lexLe, hxy]
      · by_cases hyx : y < x
        · right; simp [lexLe, hyx]
        · rcases ih ys with h | h
          · left; simp [lexLe, hxy, hyx, h]
          · right; simp [lexLe, hxy, hyx, h]

theorem insSorted_head_cases (a : List Char) (l : List (List Char)) :
    (insSorted a l).head? = some a ∨ (insSorted a l).head? = l.head? := by
  cases l with
  | nil => left; rfl
  | cons b t =>
    unfold insSorted
    split
    · left; rfl
    · right; rfl

theorem chain'_insSorted (a : List Char) :
    ∀ {l : List (List Char)}, List.Chain' (fun x y => lexLe x y = true) l →
      List.Chain' (fun x y => lexLe x y = true) (insSorted a l) := by
  intro l
  induction l with
  | nil => intro _; simp [insSorted]
  | cons b t ih =>
    intro hchain
    unfold insSorted
    split
    · exact List.chain'_cons.mpr ⟨by assumption, hchain⟩
    · rename_i hab
      have hba : lexLe b a = true := by
        rcases lexLe_total a b with h | h
        · exact absurd h hab
        · exact h
      have htail : List.Chain' (fun x y => lexLe x y = true) t := hchain.tail
      refine List.chain'_cons'.mpr ⟨?_, ih htail⟩
      intro y hy
      rcases insSorted_head_cases a t with hh | hh
      · rw [hh] at hy
        cases hy
        exact hba
      · rw [hh] at hy
        cases t with
        | nil => cases hy
        | cons c t' =>
          cases hy
          exact (List.chain'_cons.mp hchain).1

theorem sortStrings_chain' (l : List (List Char)) :
    List.Chain' (fun x y => lexLe x y = true) (sortStrings l) := by
  unfold sortStrings
  induction l with
  | nil => simp
  | cons a t ih => exact chain'_insSorted a ih

/-! ## C4 -/

/-- C4 (counterexample): a source with no locatable `SELECT ... FROM`
boundary parses to zero columns, yet it is *not* skipped from assembly: it
still gets its own CTE (`cte1 AS (no select here)`) and an aligned all-NULL
block (`SELECT NULL AS x FROM cte1`), and the returned warning state is empty
— no ParseError diagnostic, no PartialFailureWarning. -/
theorem c4_failed_source_not_skipped :
    parse_columns (fix_simple_syntax_errors "no select here".toList) = []
    ∧ unify_queries [] unparsablePairQueries =
        ([], ("WITH cte1 AS (\n  no select here\n),\ncte2 AS (\n  SELECT x FROM t\n)\n-- Query final unificada\nSELECT * FROM (\nSELECT NULL AS x FROM cte1\nUNION ALL\nSELECT x FROM cte2\n) AS unified_result;").toList)
    ∧ (unionQueriesOf unparsablePairQueries).length = 2 :=
  ⟨rfl, rfl, rfl⟩

/-- C4 (amended): a source yielding zero parsed columns contributes no
aliases, so its aligned block consists only of NULL placeholders, but it is
still assembled — every input source always yields exactly one CTE and one
union block (no skipping), the parse failure is only logged, and no
ParseError/PartialFailureWarning diagnostics or strict mode exist. -/
theorem c4_amended_every_source_assembled (qs : List (List Char)) (_h : qs ≠ []) :
    (ctesOf qs).length = qs.length
    ∧ (unionQueriesOf qs).length = qs.length
    ∧ unionBlocksOf qs =
        (allColumnSetsOf qs).map
          (fun p => (sortedAliasesOf qs).map (alignedEntry (buildColumnDict p.2))) := by
  refine ⟨?_, ?_, ?_⟩
  · simp [ctesOf, allColumnSetsOf_length]
  · simp [unionQueriesOf, allColumnSetsOf_length]
  · simp only [unionBlocksOf, unionColumnsFor_eq_map]

/-- Witness for `c4_amended_every_source_assembled` at the concrete pair with
one unparsable source. -/
theorem c4_amended_witness :
    (ctesOf unparsablePairQueries).length = unparsablePairQueries.length
    ∧ (unionQueriesOf unparsablePairQueries).length = unparsablePairQueries.length
    ∧ unionBlocksOf unparsablePairQueries =
        (allColumnSetsOf unparsablePairQueries).map
          (fun p => (sortedAliasesOf unparsablePairQueries).map
            (alignedEntry (buildColumnDict p.2))) :=
  c4_amended_every_source_assembled unparsablePairQueries (by decide)

/-! ## C5 -/

/-- C5: for every input list (in particular any with at least two sources),
every per-source aligned projection list is the image of the one shared,
lexicographically ordered alias list: each block has exactly `|AliasUnion|`
entries (the sorted alias list has the same length as the duplicate-free
alias union), every block is the map of `alignedEntry` over that same sorted
list, and the sorted list is ordered under the lexicographic code-point
order. -/
theorem c5_aligned_blocks_sorted_alias_union (qs : List (List Char)) (_h : 2 ≤ qs.length) :
    (unionBlocksOf qs).map List.length
        = List.replicate qs.length (sortedAliasesOf qs).length
    ∧ unionBlocksOf qs
        = (allColumnSetsOf qs).map
            (fun p => (sortedAliasesOf qs).map (alignedEntry (buildColumnDict p.2)))
    ∧ (sortedAliasesOf qs).length = (allAliasesOf qs).length
    ∧ List.Chain' (fun x y => lexLe x y = true) (sortedAliasesOf qs) := by
  have hblocks : unionBlocksOf qs =
      (allColumnSetsOf qs).map
        (fun p => (sortedAliasesOf qs).map (alignedEntry (buildColumnDict p.2))) := by
    simp only [unionBlocksOf, unionColumnsFor_eq_map]
  refine ⟨?_, hblocks, sortStrings_length _, sortStrings_chain' _⟩
  rw [hblocks]
  simp [List.map_map, Function.comp_def, List.map_const', allColumnSetsOf_length qs]

/-- Witness for `c5_aligned_blocks_sorted_alias_union` at the Scenario 1
queries. -/
theorem c5_witness :
    2 ≤ scenario1Queries.length
    ∧ ((unionBlocksOf scenario1Queries).map List.length
          = List.replicate scenario1Queries.length (sortedAliasesOf scenario1Queries).length
        ∧ unionBlocksOf scenario1Queries
          = (allColumnSetsOf scenario1Queries).map
              (fun p => (sortedAliasesOf scenario1Queries).map
                (alignedEntry (buildColumnDict p.2)))
        ∧ (sortedAliasesOf scenario1Queries).length = (allAliasesOf scenario1Queries).length
        ∧ List.Chain' (fun x y => lexLe x y = true) (sortedAliasesOf scenario1Queries)) :=
  ⟨by decide, c5_aligned_blocks_sorted_alias_union scenario1Queries (by decide)⟩

/-! ## C8 — the compatibility checker -/

theorem foldl_append_ite {β γ : Type} (c : β → Prop) [DecidablePred c] (g : β → List γ) :
    ∀ (l : List β) (init : List γ),
      l.foldl (fun acc b => if c b then acc else acc ++ g b) init
        = init ++ l.flatMap (fun b => if c b then [] else g b) := by
  intro l
  induction l with
  | nil => intro init; simp
  | cons a t ih =>
    intro init
    simp only [List.foldl_cons, List.flatMap_cons]
    rw [ih]
    by_cases h : c a <;> simp [h]

theorem enum_flatMap_snd {α γ : Type} (l : List α) (g : α → List γ) :
    l.enum.flatMap (fun s => g s.2) = l.flatMap g := by
  conv_rhs => rw [← List.enum_map_snd l]
  rw [List.flatMap_map]

/-- The inner loop of `checkAliasPairs`, rephrased over the suffix of the
original observation list. -/
theorem checkAliasPairs_inner_eq (al : List Char) (typeInfo : List (Nat × String))
    (i : Nat) (qi : Nat) (t1 : String) (hmem : typeInfo[i]? = some (qi, t1)) :
    (((typeInfo.map (·.2)).drop (i + 1)).enum.map (fun q => (q.1 + (i + 1), q.2))).flatMap
      (fun q => if are_types_compatible t1 q.2 then []
        else [mkWarning al ((typeInfo.map (·.1)).getD i 0 + 1) t1
                ((typeInfo.map (·.1)).getD q.1 0 + 1) q.2])
    = (typeInfo.drop (i + 1)).flatMap
        (fun q => if are_types_compatible t1 q.2 then []
          else [mkWarning al (qi + 1) t1 (q.1 + 1) q.2]) := by
  have hqi : (typeInfo.map (·.1)).getD i 0 = qi := by
    rw [List.getD_eq_getD_get?, List.get?_eq_getElem?, List.getElem?_map, hmem]
    rfl
  rw [hqi, ← List.map_drop, List.enum_map, List.map_map, List.flatMap_map]
  have hcong : ∀ s ∈ (typeInfo.drop (i + 1)).enum,
      (fun q => if are_types_compatible t1 q.2 then []
        else [mkWarning al (qi + 1) t1 ((typeInfo.map (·.1)).getD q.1 0 + 1) q.2])
        (((fun q => (q.1 + (i + 1), q.2)) ∘ Prod.map id (·.2)) s)
      = (fun s => (fun q => if are_types_compatible t1 q.2 then []
          else [mkWarning al (qi + 1) t1 (q.1 + 1) q.2]) s.2) s := by
    intro s hs
    obtain ⟨k, qj, tj⟩ := s
    have hsk : typeInfo[i + 1 + k]? = some (qj, tj) := by
      have h := List.mk_mem_enum_iff_getElem?.mp hs
      rwa [List.getElem?_drop] at h
    have hqj : (typeInfo.map (·.1)).getD (k + (i + 1)) 0 = qj := by
      rw [List.getD_eq_getD_get?, List.get?_eq_getElem?, List.getElem?_map,
        Nat.add_comm k (i + 1), hsk]
      rfl
    simp only [Function.comp_apply, Prod.map_apply, id_eq]
    rw [hqj]
  rw [List.flatMap_congr hcong]
  exact enum_flatMap_snd (typeInfo.drop (i + 1))
    (fun q => if are_types_compatible t1 q.2 then []
      else [mkWarning al (qi + 1) t1 (q.1 + 1) q.2])

/-- The double index loop of `checkAliasPairs` produces exactly the
pairs-after comprehension `incompatiblePairWarnings`. -/
theorem checkAliasPairs_eq (al : List Char) (typeInfo : List (Nat × String)) :
    checkAliasPairs al typeInfo = incompatiblePairWarnings al typeInfo := by
  have h1 : checkAliasPairs al typeInfo
      = (typeInfo.map (·.2)).enum.flatMap (fun p =>
          (((typeInfo.map (·.2)).drop (p.1 + 1)).enum.map (fun q => (q.1 + (p.1 + 1), q.2))).flatMap
            (fun q => if are_types_compatible p.2 q.2 then []
              else [mkWarning al ((typeInfo.map (·.1)).getD p.1 0 + 1) p.2
                      ((typeInfo.map (·.1)).getD q.1 0 + 1) q.2])) := by
    unfold checkAliasPairs
    have hfun : (fun (ws : List String) (p : Nat × String) =>
        (((typeInfo.map (·.2)).drop (p.1 + 1)).enum.map (fun q => (q.1 + (p.1 + 1), q.2))).foldl
          (fun ws q =>
            if are_types_compatible p.2 q.2 then ws
            else ws ++ [mkWarning al ((typeInfo.map (·.1)).getD p.1 0 + 1) p.2
                          ((typeInfo.map (·.1)).getD q.1 0 + 1) q.2]) ws)
        = (fun ws p => ws ++
            (((typeInfo.map (·.2)).drop (p.1 + 1)).enum.map (fun q => (q.1 + (p.1 + 1), q.2))).flatMap
              (fun q => if are_types_compatible p.2 q.2 then []
                else [mkWarning al ((typeInfo.map (·.1)).getD p.1 0 + 1) p.2
                        ((typeInfo.map (·.1)).getD q.1 0 + 1) q.2])) := by
      funext ws p
      exact foldl_append_ite _ _ _ ws
    rw [hfun, foldl_append_flatMap]
    simp
  rw [h1, List.enum_map, List.flatMap_map]
  unfold incompatiblePairWarnings
  apply List.flatMap_congr
  intro r hr
  obtain ⟨i, qi, ti⟩ := r
  have hmem : typeInfo[i]? = some (qi, ti) := List.mk_mem_enum_iff_getElem?.mp hr
  simpa [Prod.map] using checkAliasPairs_inner_eq al typeInfo i qi ti hmem

theorem checkAliasPairs_short (al : List Char) :
    ∀ (typeInfo : List (Nat × String)), typeInfo.length ≤ 1 → checkAliasPairs al typeInfo = [] := by
  intro typeInfo h
  cases typeInfo with
  | nil => rfl
  | cons x t =>
    cases t with
    | nil => rfl
    | cons y t' => simp at h

/-- C8: the compatibility checker is exactly the advisory pairwise filter the
spec describes.  (i) `are_types_compatible` returns `false` iff the two types
are distinct, neither is `unknown`, they are not both numeric
(`integer`/`decimal`), and not both textual-ish (`string`/`date`);
(ii) for one alias, the emitted warnings are exactly one warning — naming the
alias, the two 1-based source ordinals and the two types — per ordered pair
of occurrences (`i < j`) whose types are incompatible; (iii) the whole
checker is the concatenation of those per-alias warning lists over the
alias-grouped observations (aliases observed at most once contribute
nothing); (iv) the check never blocks assembly: the SQL text returned by
`unify_queries` does not depend on the accumulated warning state. -/
theorem c8_compatibility_checker_characterization :
    (∀ type1 type2 : String,
      are_types_compatible type1 type2 = false ↔
        (type1 ≠ type2 ∧ type1 ≠ "unknown" ∧ type2 ≠ "unknown"
          ∧ ¬((type1 = "integer" ∨ type1 = "decimal") ∧ (type2 = "integer" ∨ type2 = "decimal"))
          ∧ ¬((type1 = "string" ∨ type1 = "date") ∧ (type2 = "string" ∨ type2 = "date"))))
    ∧ (∀ (al : List Char) (typeInfo : List (Nat × String)),
        checkAliasPairs al typeInfo = incompatiblePairWarnings al typeInfo)
    ∧ (∀ allColumnSets : List (Nat × List ColTriple),
        check_type_compatibility allColumnSets =
          (aliasToTypes allColumnSets).flatMap (fun p => checkAliasPairs p.1 p.2))
    ∧ (∀ (typeWarnings : List String) (queries : List (List Char)),
        (unify_queries typeWarnings queries).2 = (unify_queries [] queries).2) := by
  refine ⟨?_, checkAliasPairs_eq, ?_, ?_⟩
  · intro type1 type2
    unfold are_types_compatible
    split_ifs with h1 h2 h3 h4
    all_goals simp_all
    tauto
  · intro allColumnSets
    unfold check_type_compatibility
    rw [foldl_append_ite (fun p : List Char × List (Nat × String) => p.2.length ≤ 1)
      (fun p : List Char × List (Nat × String) => checkAliasPairs p.1 p.2)]
    simp only [List.nil_append]
    apply List.flatMap_congr
    intro p _
    by_cases h : p.2.length ≤ 1
    · simp [h, checkAliasPairs_short p.1 p.2 h]
    · simp [h]
  · intro typeWarnings queries
    unfold unify_queries
    split <;> rfl

/-! ## C9 — the wildcard check -/

theorem splitFragments_mem (c : Char) :
    ∀ (s : List Char) (cols : List (List Char)) (cur : List Char) (depth : Int) (inQ : Bool)
      (frag : List Char), frag ∈ splitFragments s cols cur depth inQ → c ∈ frag →
      c ∈ s ∨ c ∈ cur ∨ ∃ f ∈ cols, c ∈ f := by
  intro s
  induction s with
  | nil =>
    intro cols cur depth inQ frag hf hc
    simp only [splitFragments] at hf
    split_ifs at hf
    · rcases List.mem_append.mp hf with h | h
      · exact Or.inr (Or.inr ⟨frag, h, hc⟩)
      · right; left
        exact mem_of_mem_pyStrip (List.mem_singleton.mp h ▸ hc)
    · exact Or.inr (Or.inr ⟨frag, hf, hc⟩)
  | cons ch rest ih =>
    intro cols cur depth inQ frag hf hc
    simp only [splitFragments] at hf
    have fromCur : ∀ {d' : Int} {q' : Bool},
        frag ∈ splitFragments rest cols (cur ++ [ch]) d' q' →
        c ∈ ch :: rest ∨ c ∈ cur ∨ ∃ f ∈ cols, c ∈ f := by
      intro d' q' hf'
      rcases ih cols (cur ++ [ch]) d' q' frag hf' hc with h | h | h
      · exact Or.inl (List.mem_cons_of_mem ch h)
      · rcases List.mem_append.mp h with h1 | h1
        · exact Or.inr (Or.inl h1)
        · exact Or.inl (List.mem_singleton.mp h1 ▸ List.mem_cons_self ch rest)
      · exact Or.inr (Or.inr h)
    split_ifs at hf
    any_goals exact fromCur hf
    -- the top-level comma branch
    rcases ih (cols ++ [pyStrip cur]) [] depth inQ frag hf hc with h | h | ⟨f, hmem, hcf⟩
    · exact Or.inl (List.mem_cons_of_mem ch h)
    · cases h
    · rcases List.mem_append.mp hmem with h1 | h1
      · exact Or.inr (Or.inr ⟨f, h1, hcf⟩)
      · exact Or.inr (Or.inl (mem_of_mem_pyStrip (List.mem_singleton.mp h1 ▸ hcf)))

theorem findAliasAux_mem (c : Char) :
    ∀ (l pre colPart tok : List Char), findAliasAux pre l = some (colPart, tok) →
      c ∈ colPart → c ∈ pre ∨ c ∈ l := by
  intro l
  induction l with
  | nil => intro pre colPart tok h; simp [findAliasAux] at h
  | cons a t ih =>
    intro pre colPart tok h hc
    simp only [findAliasAux] at h
    cases hm : aliasPatHere (a :: t) with
    | some tok' =>
      rw [hm] at h
      have := (Option.some.injEq _ _).mp h
      have hpre : pre = colPart := congrArg Prod.fst this
      exact Or.inl (hpre ▸ hc)
    | none =>
      rw [hm] at h
      rcases ih (pre ++ [a]) colPart tok h hc with h1 | h1
      · rcases List.mem_append.mp h1 with h2 | h2
        · exact Or.inl h2
        · exact Or.inr (List.mem_singleton.mp h2 ▸ List.mem_cons_self a t)
      · exact Or.inr (List.mem_cons_of_mem a h1)

theorem pySplitWsAux_mem (c : Char) :
    ∀ (l tok part : List Char), part ∈ pySplitWsAux tok l → c ∈ part → c ∈ tok ∨ c ∈ l := by
  intro l
  induction l with
  | nil =>
    intro tok part hp hc
    simp only [pySplitWsAux] at hp
    split_ifs at hp
    · cases hp
    · exact Or.inl (List.mem_reverse.mp (List.mem_singleton.mp hp ▸ hc))
  | cons a t ih =>
    intro tok part hp hc
    simp only [pySplitWsAux] at hp
    split_ifs at hp
    · rcases ih [] part hp hc with h | h
      · cases h
      · exact Or.inr (List.mem_cons_of_mem a h)
    · rcases List.mem_cons.mp hp with h | h
      · exact Or.inl (List.mem_reverse.mp (h ▸ hc))
      · rcases ih [] part h hc with h1 | h1
        · cases h1
        · exact Or.inr (List.mem_cons_of_mem a h1)
    · rcases ih (a :: tok) part hp hc with h | h
      · rcases List.mem_cons.mp h with h1 | h1
        · exact Or.inr (h1 ▸ List.mem_cons_self a t)
        · exact Or.inl h1
      · exact Or.inr (List.mem_cons_of_mem a h)

theorem mem_intersperse_sep (sep : List Char) :
    ∀ (L : List (List Char)) (l' : List Char),
      l' ∈ List.intersperse sep L → l' = sep ∨ l' ∈ L
  | [], l', h => by simp [List.intersperse] at h
  | [x], l', h => by
    simp only [List.intersperse] at h
    exact Or.inr h
  | x :: y :: t, l', h => by
    simp only [List.intersperse] at h
    rcases List.mem_cons.mp h with h1 | h1
    · exact Or.inr (h1 ▸ List.mem_cons_self x (y :: t))
    rcases List.mem_cons.mp h1 with h2 | h2
    · exact Or.inl h2
    · rcases mem_intersperse_sep sep (y :: t) l' h2 with h3 | h3
      · exact Or.inl h3
      · exact Or.inr (List.mem_cons_of_mem x h3)

theorem mem_intercalate_space (c : Char) (L : List (List Char))
    (h : c ∈ List.intercalate [' '] L) : c = ' ' ∨ ∃ l ∈ L, c ∈ l := by
  have hflat : c ∈ (List.intersperse [' '] L).flatten := h
  rcases List.mem_flatten.mp hflat with ⟨l', hl', hc⟩
  rcases mem_intersperse_sep [' '] L l' hl' with h1 | h1
  · exact Or.inl (List.mem_singleton.mp (h1 ▸ hc))
  · exact Or.inr ⟨l', h1, hc⟩

theorem resolveAlias_fst_mem (c : Char) (col : List Char)
    (hc : c ∈ (resolveAlias col).1) : c ∈ col ∨ c = ' ' := by
  unfold resolveAlias at hc
  cases hfa : findAlias col with
  | some pr =>
    obtain ⟨cp, tok⟩ := pr
    rw [hfa] at hc
    have h1 : c ∈ cp := mem_of_mem_pyStrip hc
    rcases findAliasAux_mem c col [] cp tok hfa h1 with h2 | h2
    · cases h2
    · exact Or.inl h2
  | none =>
    rw [hfa] at hc
    dsimp only at hc
    split_ifs at hc
    · have h1 : c ∈ List.intercalate [' '] (pySplitWs col).dropLast :=
        mem_of_mem_pyStrip hc
      rcases mem_intercalate_space c _ h1 with h2 | ⟨l', hl', hc'⟩
      · exact Or.inr h2
      · have hl2 : l' ∈ pySplitWs col := (pySplitWs col).dropLast_sublist.mem hl'
        rcases pySplitWsAux_mem c col [] l' hl2 hc' with h3 | h3
        · cases h3
        · exact Or.inl h3
    · exact Or.inl (mem_of_mem_pyStrip hc)
    · exact Or.inl (mem_of_mem_pyStrip hc)

/-- C9 (counterexample): the wildcard test is containment, not equality — a
projection list that merely contains `*` inside an expression, such as
`SELECT a, COUNT(*) AS n FROM t`, is degraded to the single wildcard marker
instead of being parsed into its column projections. -/
theorem c9_count_star_degrades_to_wildcard :
    parse_columns "SELECT a, COUNT(*) AS n FROM t".toList = [(['*'], ['*'], "unknown")]
    ∧ ([(['*'], ['*'], "unknown")] : List ColTriple) ≠
        [("a".toList, "a".toList, "unknown"), ("COUNT(*)".toList, "n".toList, "integer")] :=
  ⟨rfl, by decide⟩

/-- C9 (amended): `parse_columns` returns the single wildcard marker exactly
when the located projection list *contains* `*` anywhere (after stripping),
not only when it is exactly `*`: the `*`-check of line 140 is a substring
containment test, and conversely the normal parsing path can never produce
the marker for a clause without `*` (every parsed expression's characters
come from the clause, up to inserted single spaces). -/
theorem c9_amended_wildcard_iff_contains_star (q clause : List Char)
    (h : selectClauseOf q = some clause) :
    parse_columns q = [(['*'], ['*'], "unknown")] ↔ '*' ∈ pyStrip clause := by
  constructor
  · intro heq
    by_contra hw
    unfold parse_columns at heq
    rw [h] at heq
    dsimp only at heq
    rw [if_neg hw] at heq
    cases hfr : splitFragments clause [] [] 0 false with
    | nil => rw [hfr] at heq; simp at heq
    | cons a t =>
      rw [hfr] at heq
      simp only [List.map_cons, List.cons_eq_cons] at heq
      have hfa : (resolveAlias a).1 = ['*'] := congrArg Prod.fst heq.1
      have hstar : '*' ∈ (resolveAlias a).1 := by
        rw [hfa]; exact List.mem_singleton.mpr rfl
      rcases resolveAlias_fst_mem '*' a hstar with hin | hsp
      · have hfrag : a ∈ splitFragments clause [] [] 0 false := by
          rw [hfr]; exact List.mem_cons_self a t
        rcases splitFragments_mem '*' clause [] [] 0 false a hfrag hin with h1 | h1 | ⟨f, hf, _⟩
        · exact hw (mem_pyStrip_of_mem h1 (by decide))
        · cases h1
        · cases hf
      · exact absurd hsp (by decide)
  · intro hw
    unfold parse_columns
    rw [h]
    dsimp only
    rw [if_pos hw]

/-- Witness for `c9_amended_wildcard_iff_contains_star` at the
`COUNT(*)` input. -/
theorem c9_amended_witness :
    selectClauseOf "SELECT a, COUNT(*) AS n FROM t".toList = some "a, COUNT(*) AS n".toList
    ∧ (parse_columns "SELECT a, COUNT(*) AS n FROM t".toList = [(['*'], ['*'], "unknown")]
        ↔ '*' ∈ pyStrip "a, COUNT(*) AS n".toList) :=
  ⟨rfl, c9_amended_wildcard_iff_contains_star _ _ rfl⟩

end Orion
